import Mathlib

/-!
# Verification of the gotty `app` package (src/app/app.go)

This file shallowly embeds the pure logic of `src/app/app.go`:

* `expandHomeDir`       — lines 141–147 (`~/` expansion; panics on short paths)
* `applyConfigFile`     — lines 108–139 (HCL config applied to the options struct
                          via field reflection and snake-case key matching)
* `loadProfileFile`     — lines 149–169 (preferences file loading)
* `DefaultOptions`      — lines 57–73
* `wrapBasicAuth`       — lines 300–325 (HTTP Basic auth gate)
* `generateRandomString`— lines 327–336 (random base-36 URL segment)
* route/path assembly and the TLS file arguments of `Run` — lines 171–250

Go strings are byte strings; where byte-level indexing matters we model them
as `List Nat` (one `Nat` per byte, values < 256).  Where only equality of
short ASCII identifiers matters (HCL map keys) we use Lean's `String`.

External collaborators (the OS file system, the HCL decoder of
github.com/hashicorp/hcl, the crypto/rand reader) are modelled as explicit
function parameters carrying the contracts their Go APIs guarantee:
a file system is a partial map from paths to contents (`os.Stat` reports a
file as existing exactly when reading it yields its contents), an HCL
decoder maps a document to either a key/value map or an error (on a syntax
error the target map is left empty, which is what `hcl.Decode` does, since
parsing precedes decoding), and `rand.Int(rand.Reader, 36)` yields values
in `[0, 36)` (`Fin 36`).  The base64 standard decoder of encoding/base64,
whose success or failure the auth gate branches on, is embedded concretely.
-/

/-- A Go string viewed as its bytes. -/
abbrev GoStr := List Nat

/-- Bytes of an ASCII Lean string literal, for concrete inputs. -/
def bytes (s : String) : GoStr := s.data.map Char.toNat

/-- `expandHomeDir` (app.go 141–147):

```go
func expandHomeDir(path string) string {
    if path[0:2] == "~/" {
        return os.Getenv("HOME") + path[1:]
    } else {
        return path
    }
}
```

`path[0:2]` panics (slice bounds out of range) whenever `len(path) < 2`;
the panic is modelled as `none`. -/
def expandHomeDir (home : GoStr) (path : GoStr) : Option GoStr :=
  if 2 ≤ path.length then
    if path.take 2 = bytes "~/" then some (home ++ path.drop 1) else some path
  else
    none

/-- A value as produced by `hcl.Decode` into `map[string]interface{}`:
strings, integers, booleans, or anything else (nested lists/objects),
which no field of `Options` can receive. -/
inductive HclValue where
  | str (s : GoStr)
  | int (n : Int)
  | bool (b : Bool)
  | other
  deriving DecidableEq, Repr

/-- The decoded configuration document: a finite map from keys to values
(Go `map[string]interface{}`, keys unique). -/
abbrev Config := List (String × HclValue)

/-- Go map lookup on the decoded document. -/
def lookupCfg (cfg : Config) (k : String) : Option HclValue :=
  match cfg with
  | [] => none
  | (k', v) :: rest => if k' = k then some v else lookupCfg rest k

/-- The `Options` struct (app.go 39–55), fields in declaration order. -/
structure Options where
  Address         : GoStr
  Port            : GoStr
  PermitWrite     : Bool
  EnableBasicAuth : Bool
  Credential      : GoStr
  EnableRandomUrl : Bool
  RandomUrlLength : Int
  ProfileFile     : GoStr
  EnableTLS       : Bool
  TLSCrtFile      : GoStr
  TLSKeyFile      : GoStr
  TitleFormat     : GoStr
  EnableReconnect : Bool
  ReconnectTime   : Int
  Once            : Bool
  deriving DecidableEq, Repr

/-- `DefaultOptions` (app.go 57–73), byte for byte. -/
def DefaultOptions : Options :=
  { Address         := bytes ""
  , Port            := bytes "8080"
  , PermitWrite     := false
  , EnableBasicAuth := false
  , Credential      := bytes ""
  , EnableRandomUrl := false
  , RandomUrlLength := 8
  , ProfileFile     := bytes "~/.gotty.prf"
  , EnableTLS       := false
  , TLSCrtFile      := bytes "~/.gotty.key"
  , TLSKeyFile      := bytes "~/.gotty.crt"
  , TitleFormat     := bytes "GoTTY - \x7b\x7b .Command \x7d\x7d (\x7b\x7b .Hostname \x7d\x7d)"
  , EnableReconnect := false
  , ReconnectTime   := 10
  , Once            := false }

/-- One field of the `Options` struct, as enumerated by
`structs.New(options).Names()`. -/
inductive FieldName where
  | address | port | permitWrite | enableBasicAuth | credential
  | enableRandomUrl | randomUrlLength | profileFile | enableTLS
  | tlsCrtFile | tlsKeyFile | titleFormat | enableReconnect
  | reconnectTime | once
  deriving DecidableEq, Repr

/-- The field list in struct declaration order (`o.Names()`). -/
def fieldNames : List FieldName :=
  [ .address, .port, .permitWrite, .enableBasicAuth, .credential
  , .enableRandomUrl, .randomUrlLength, .profileFile, .enableTLS
  , .tlsCrtFile, .tlsKeyFile, .titleFormat, .enableReconnect
  , .reconnectTime, .once ]

/-- The Go source name of each field. -/
def goFieldName : FieldName → String
  | .address => "Address"
  | .port => "Port"
  | .permitWrite => "PermitWrite"
  | .enableBasicAuth => "EnableBasicAuth"
  | .credential => "Credential"
  | .enableRandomUrl => "EnableRandomUrl"
  | .randomUrlLength => "RandomUrlLength"
  | .profileFile => "ProfileFile"
  | .enableTLS => "EnableTLS"
  | .tlsCrtFile => "TLSCrtFile"
  | .tlsKeyFile => "TLSKeyFile"
  | .titleFormat => "TitleFormat"
  | .enableReconnect => "EnableReconnect"
  | .reconnectTime => "ReconnectTime"
  | .once => "Once"

/-- Read one field of the struct as an `interface{}` value. -/
def getField (o : Options) : FieldName → HclValue
  | .address => .str o.Address
  | .port => .str o.Port
  | .permitWrite => .bool o.PermitWrite
  | .enableBasicAuth => .bool o.EnableBasicAuth
  | .credential => .str o.Credential
  | .enableRandomUrl => .bool o.EnableRandomUrl
  | .randomUrlLength => .int o.RandomUrlLength
  | .profileFile => .str o.ProfileFile
  | .enableTLS => .bool o.EnableTLS
  | .tlsCrtFile => .str o.TLSCrtFile
  | .tlsKeyFile => .str o.TLSKeyFile
  | .titleFormat => .str o.TitleFormat
  | .enableReconnect => .bool o.EnableReconnect
  | .reconnectTime => .int o.ReconnectTime
  | .once => .bool o.Once

/-- `structs` error message when `field.Set` receives a value of the wrong
reflection kind. -/
def wrongKindMsg : String := "wrong kind of value"

/-- `field.Set(val)` (structs.Field.Set, called at app.go 131): stores the
decoded value into the struct field when the reflection kinds agree and
errors otherwise. -/
def setField (o : Options) (f : FieldName) (v : HclValue) : Except String Options :=
  match f, v with
  | .address, .str s => .ok { o with Address := s }
  | .port, .str s => .ok { o with Port := s }
  | .permitWrite, .bool b => .ok { o with PermitWrite := b }
  | .enableBasicAuth, .bool b => .ok { o with EnableBasicAuth := b }
  | .credential, .str s => .ok { o with Credential := s }
  | .enableRandomUrl, .bool b => .ok { o with EnableRandomUrl := b }
  | .randomUrlLength, .int n => .ok { o with RandomUrlLength := n }
  | .profileFile, .str s => .ok { o with ProfileFile := s }
  | .enableTLS, .bool b => .ok { o with EnableTLS := b }
  | .tlsCrtFile, .str s => .ok { o with TLSCrtFile := s }
  | .tlsKeyFile, .str s => .ok { o with TLSKeyFile := s }
  | .titleFormat, .str s => .ok { o with TitleFormat := s }
  | .enableReconnect, .bool b => .ok { o with EnableReconnect := b }
  | .reconnectTime, .int n => .ok { o with ReconnectTime := n }
  | .once, .bool b => .ok { o with Once := b }
  | _, _ => .error wrongKindMsg

/-- Does the decoded value's reflection kind match the field's kind? -/
def kindOk : FieldName → HclValue → Bool
  | .address, .str _ => true
  | .port, .str _ => true
  | .permitWrite, .bool _ => true
  | .enableBasicAuth, .bool _ => true
  | .credential, .str _ => true
  | .enableRandomUrl, .bool _ => true
  | .randomUrlLength, .int _ => true
  | .profileFile, .str _ => true
  | .enableTLS, .bool _ => true
  | .tlsCrtFile, .str _ => true
  | .tlsKeyFile, .str _ => true
  | .titleFormat, .str _ => true
  | .enableReconnect, .bool _ => true
  | .reconnectTime, .int _ => true
  | .once, .bool _ => true
  | _, _ => false

/-- The pure update a successful `field.Set` performs (identity when the
kinds disagree; in that case `setField` errors and never applies it). -/
def updF : FieldName → HclValue → Options → Options
  | .address, .str s, o => { o with Address := s }
  | .port, .str s, o => { o with Port := s }
  | .permitWrite, .bool b, o => { o with PermitWrite := b }
  | .enableBasicAuth, .bool b, o => { o with EnableBasicAuth := b }
  | .credential, .str s, o => { o with Credential := s }
  | .enableRandomUrl, .bool b, o => { o with EnableRandomUrl := b }
  | .randomUrlLength, .int n, o => { o with RandomUrlLength := n }
  | .profileFile, .str s, o => { o with ProfileFile := s }
  | .enableTLS, .bool b, o => { o with EnableTLS := b }
  | .tlsCrtFile, .str s, o => { o with TLSCrtFile := s }
  | .tlsKeyFile, .str s, o => { o with TLSKeyFile := s }
  | .titleFormat, .str s, o => { o with TitleFormat := s }
  | .enableReconnect, .bool b, o => { o with EnableReconnect := b }
  | .reconnectTime, .int n, o => { o with ReconnectTime := n }
  | .once, .bool b, o => { o with Once := b }
  | _, _, o => o

/-- Character class used by `camelcase.Split` (github.com/fatih/camelcase):
lower, upper, digit, other. -/
def charClass (c : Char) : Nat :=
  if c.isLower then 1 else if c.isUpper then 2 else if c.isDigit then 3 else 4

/-- First pass of `camelcase.Split`: group consecutive characters of the same
class into runs. -/
def splitRuns : List Char → List (List Char)
  | [] => []
  | c :: rest =>
    match splitRuns rest with
    | [] => [[c]]
    | [] :: rs => [c] :: [] :: rs
    | (d :: r) :: rs =>
      if charClass c = charClass d then (c :: d :: r) :: rs else [c] :: (d :: r) :: rs

/-- Second pass of `camelcase.Split`, walking the runs left to right with
the current run as accumulator: an upper-case run followed by a lower-case
run donates its last character to the lower-case run
(e.g. runs "TLSC","rt" become "TLS","Crt"). -/
def mergeRunsGo : List Char → List (List Char) → List (List Char)
  | r1, [] => [r1]
  | r1, r2 :: rest =>
    if (r1.head?.elim False Char.isUpper) && (r2.head?.elim False Char.isLower) then
      r1.dropLast :: mergeRunsGo (r1.getLastD ' ' :: r2) rest
    else
      r1 :: mergeRunsGo r2 rest

/-- Second pass of `camelcase.Split` over the whole run list. -/
def mergeRuns : List (List Char) → List (List Char)
  | [] => []
  | r :: rs => mergeRunsGo r rs

/-- `camelcase.Split` (ASCII): split a CamelCase identifier into words
(runs of characters; empty runs left by the merge pass are dropped). -/
def camelSplit (s : String) : List (List Char) :=
  (mergeRuns (splitRuns s.data)).filter (· ≠ [])

/-- `strings.Join(words, "_")` on character lists. -/
def joinUnderscore (ws : List (List Char)) : List Char :=
  (ws.intersperse ['_']).flatten

/-- The config-file key for a struct field, as computed at app.go 125:
`strings.ToLower(strings.Join(camelcase.Split(name), "_"))`. -/
def configKey (f : FieldName) : String :=
  String.mk ((joinUnderscore (camelSplit (goFieldName f))).map Char.toLower)

/-- The field-setting loop of `applyConfigFile` (app.go 123–136): for each
struct field in order, if the decoded document has the field's snake-case
key, set the field; on a set error return immediately (the options struct,
mutated in place, keeps the fields already set).  The result pairs the
final struct state with the returned error, if any. -/
def applyConfigLoop : Options → List FieldName → Config → Options × Option String
  | o, [], _ => (o, none)
  | o, f :: rest, cfg =>
    match lookupCfg cfg (configKey f) with
    | none => applyConfigLoop o rest cfg
    | some v =>
      match setField o f v with
      | .ok o' => applyConfigLoop o' rest cfg
      | .error e => (o, some e)

/-- The OS file system at one instant: maps a path to the file's contents
when the file exists (`os.Stat` succeeds exactly on those paths, and
`ioutil.ReadFile` then returns the contents). -/
abbrev FileSys := GoStr → Option GoStr

/-- The HCL decoder (`hcl.Decode` of github.com/hashicorp/hcl), external to
this repository: maps a document to its key/value map or to an error. -/
abbrev HclDecoder := GoStr → Except String Config

/-- The error `os.Stat` returns for a missing file (`os.IsNotExist` true). -/
def errNoSuchFile : String := "no such file or directory"

/-- `applyConfigFile` (app.go 108–139):

```go
filePath = expandHomeDir(filePath)
if _, err := os.Stat(filePath); os.IsNotExist(err) { return err }
fileString, err := ioutil.ReadFile(filePath)
if err != nil { return err }
config := make(map[string]interface{})
hcl.Decode(&config, string(fileString))   // error DISCARDED
... field loop ...
```

`none` models the panic of `expandHomeDir` on a short path.  A discarded
`hcl.Decode` error leaves `config` as the empty map it was initialised to
(parsing precedes decoding, so a syntax error writes nothing).  The result
pairs the final state of the options struct with the returned error. -/
def applyConfigFileM (dec : HclDecoder) (home : GoStr) (fs : FileSys)
    (o : Options) (filePath : GoStr) : Option (Options × Option String) :=
  match expandHomeDir home filePath with
  | none => none
  | some fp =>
    match fs fp with
    | none => some (o, some errNoSuchFile)
    | some contents =>
      let config : Config :=
        match dec contents with
        | .ok c => c
        | .error _ => []
      some (applyConfigLoop o fieldNames config)

/-- The profile path used by `loadProfileFile` (app.go 151–154): the default
`~/.gotty.prf` is replaced by `$HOME + "/.gotty.prf"`; an explicitly set
path is used verbatim (it is NOT home-expanded). -/
def profilePath (home : GoStr) (o : Options) : GoStr :=
  if o.ProfileFile = DefaultOptions.ProfileFile then home ++ bytes "/.gotty.prf"
  else o.ProfileFile

/-- `loadProfileFile` (app.go 149–169):

```go
prefString := []byte{}
prefPath := options.ProfileFile
if options.ProfileFile == DefaultOptions.ProfileFile { prefPath = os.Getenv("HOME") + "/.gotty.prf" }
if _, err := os.Stat(prefPath); os.IsNotExist(err) {
    if options.ProfileFile != DefaultOptions.ProfileFile { return nil, err }
} else { prefString, _ = ioutil.ReadFile(prefPath) }
var prefMap map[string]interface{}
err := hcl.Decode(&prefMap, string(prefString))
if err != nil { return nil, err }
return prefMap, nil
```

When the file is missing and the path is the default, `prefString` stays
empty and the empty document is decoded. -/
def loadProfileFile (dec : HclDecoder) (home : GoStr) (fs : FileSys)
    (o : Options) : Except String Config :=
  match fs (profilePath home o) with
  | none =>
    if o.ProfileFile ≠ DefaultOptions.ProfileFile then .error errNoSuchFile
    else dec []
  | some contents => dec contents

/-- ASCII lower-casing of one byte, as `strings.ToLower` acts on the ASCII
scheme token compared against "basic" (app.go 304). -/
def toLowerByte (b : Nat) : Nat :=
  if 65 ≤ b ∧ b ≤ 90 then b + 32 else b

/-- `strings.ToLower` on a byte string (ASCII range). -/
def goToLower (s : GoStr) : GoStr := s.map toLowerByte

/-- Split a byte string at its first space: returns (part before, part from
the space on). -/
def breakAtSpace : GoStr → GoStr × GoStr
  | [] => ([], [])
  | b :: rest =>
    if b = 32 then ([], b :: rest)
    else
      let p := breakAtSpace rest
      (b :: p.1, p.2)

/-- `strings.SplitN(s, " ", 2)` (app.go 302): the whole string when it has
no space, otherwise the part before the first space and the rest after it. -/
def splitN2 (s : GoStr) : List GoStr :=
  match breakAtSpace s with
  | (pre, []) => [pre]
  | (pre, _ :: post) => [pre, post]

/-- Value of one base64 standard-alphabet character, `none` for anything
else (including `=`). -/
def b64Val (b : Nat) : Option Nat :=
  if 65 ≤ b ∧ b ≤ 90 then some (b - 65)
  else if 97 ≤ b ∧ b ≤ 122 then some (b - 71)
  else if 48 ≤ b ∧ b ≤ 57 then some (b + 4)
  else if b = 43 then some 62
  else if b = 47 then some 63
  else none

/-- Decode base64 quantums of four characters; the final quantum may end in
`=` or `==` padding, after which no data may follow.  A quantum `abc=`
yields two bytes, `ab==` one byte; trailing bits beyond the encoded bytes
are discarded (Go's non-strict `StdEncoding`).  Inputs whose length is not
a multiple of four are corrupt. -/
def b64Quantums : GoStr → Option GoStr
  | [] => some []
  | a :: b :: c :: d :: rest =>
    if d = 61 then
      if rest ≠ [] then none
      else if c = 61 then
        match b64Val a, b64Val b with
        | some va, some vb => some [va * 4 + vb / 16]
        | _, _ => none
      else
        match b64Val a, b64Val b, b64Val c with
        | some va, some vb, some vc =>
          some [va * 4 + vb / 16, (vb % 16) * 16 + vc / 4]
        | _, _, _ => none
    else
      match b64Val a, b64Val b, b64Val c, b64Val d, b64Quantums rest with
      | some va, some vb, some vc, some vd, some tail =>
        some ((va * 4 + vb / 16) :: ((vb % 16) * 16 + vc / 4) :: ((vc % 4) * 64 + vd) :: tail)
      | _, _, _, _, _ => none
  | _ => none

/-- `base64.StdEncoding.DecodeString` (app.go 310): newline characters are
ignored anywhere in the input, then padded four-character quantums are
decoded; `none` is the `CorruptInputError` case. -/
def base64StdDecode (s : GoStr) : Option GoStr :=
  b64Quantums (s.filter fun b => b ≠ 10 ∧ b ≠ 13)

/-- Outcome of the basic-auth wrapper for one request: hand the request to
the wrapped handler, or answer with a status code, with or without a
`WWW-Authenticate: Basic realm="GoTTY"` challenge header. -/
inductive AuthResult where
  | forward
  | reject (status : Nat) (challenge : Bool)
  deriving DecidableEq, Repr

/-- `wrapBasicAuth` (app.go 300–325), as a function of the configured
credential and the request's `Authorization` header value (the empty byte
string when the header is absent):

```go
token := strings.SplitN(r.Header.Get("Authorization"), " ", 2)
if len(token) != 2 || strings.ToLower(token[0]) != "basic" {
    w.Header().Set("WWW-Authenticate", `Basic realm="GoTTY"`)
    http.Error(w, "Bad Request", http.StatusUnauthorized)      // 401 + challenge
    return
}
payload, err := base64.StdEncoding.DecodeString(token[1])
if err != nil {
    http.Error(w, "Internal Server Error", http.StatusInternalServerError)  // 500, NO challenge
    return
}
if credential != string(payload) {
    w.Header().Set("WWW-Authenticate", `Basic realm="GoTTY"`)
    http.Error(w, "authorization failed", http.StatusUnauthorized)  // 401 + challenge
    return
}
handler.ServeHTTP(w, r)
```

The wrapper is installed around the whole site mux (app.go 198–201), so it
sees every request regardless of route. -/
def wrapBasicAuth (credential : GoStr) (authHeader : GoStr) : AuthResult :=
  match splitN2 authHeader with
  | [t0, t1] =>
    if goToLower t0 = bytes "basic" then
      match base64StdDecode t1 with
      | none => .reject 500 false
      | some payload =>
        if credential = payload then .forward else .reject 401 true
    else .reject 401 true
  | _ => .reject 401 true

/-- The byte `strconv.FormatInt(c, 36)[0]` for `c < 36`: the base-36 digits
are '0'–'9' then 'a'–'z'. -/
def base36Byte (c : Fin 36) : Nat :=
  if c.val < 10 then 48 + c.val else 87 + c.val

/-- `generateRandomString` (app.go 327–336): one fresh value of
`rand.Int(rand.Reader, 36)` per position (the stream `rands`, each value in
`[0, 36)` by the API's contract), formatted as a base-36 digit. -/
def generateRandomString (rands : Nat → Fin 36) (length : Nat) : GoStr :=
  (List.range length).map fun i => base36Byte (rands i)

/-- The two route patterns `Run` registers on its mux (app.go 192–194). -/
structure Routes where
  staticPat : GoStr
  wsPat     : GoStr
  deriving DecidableEq, Repr

/-- Path-prefix and route computation of `Run` (app.go 176–194):

```go
path := ""
if app.options.EnableRandomUrl {
    path += "/" + generateRandomString(app.options.RandomUrlLength)
}
...
siteMux.Handle(path+"/", http.StripPrefix(path+"/", staticHandler))
siteMux.Handle(path+"/ws", wsHandler)
```

`make([]byte, length)` panics for a negative length (modelled as `none`). -/
def pathOfOptions (o : Options) (rands : Nat → Fin 36) : Option GoStr :=
  if o.EnableRandomUrl then
    match o.RandomUrlLength with
    | .ofNat n => some (bytes "/" ++ generateRandomString rands n)
    | .negSucc _ => none
  else some []

/-- The route patterns registered on the mux for a given path prefix
(app.go 192–194). -/
def runRoutes (o : Options) (rands : Nat → Fin 36) : Option (GoStr × Routes) :=
  match pathOfOptions o rands with
  | none => none
  | some path => some (path, ⟨path ++ bytes "/", path ++ bytes "/ws"⟩)

/-- The certificate/key file pair `Run` hands to `ListenAndServeTLS`
(app.go 235–239) when TLS is enabled: the home-expanded `TLSCrtFile` is the
certificate argument and the home-expanded `TLSKeyFile` the key argument.
`none` models TLS disabled or a panic inside `expandHomeDir`. -/
def runTLSFiles (home : GoStr) (o : Options) : Option (GoStr × GoStr) :=
  if o.EnableTLS then
    match expandHomeDir home o.TLSCrtFile, expandHomeDir home o.TLSKeyFile with
    | some crt, some key => some (crt, key)
    | _, _ => none
  else none

/-! ## Helper lemmas about the config-file field loop -/

/-- Sanity: the snake-case keys the loop computes for the fields of
`Options`, in order. -/
theorem configKey_values :
    fieldNames.map configKey =
      [ "address", "port", "permit_write", "enable_basic_auth", "credential"
      , "enable_random_url", "random_url_length", "profile_file", "enable_tls"
      , "tls_crt_file", "tls_key_file", "title_format", "enable_reconnect"
      , "reconnect_time", "once" ] := by decide

/-- `setField` succeeds exactly when the reflection kinds match, and then
performs the pure update `updF`. -/
theorem setField_eq (o : Options) (f : FieldName) (v : HclValue) :
    setField o f v = if kindOk f v then .ok (updF f v o) else .error wrongKindMsg := by
  cases f <;> cases v <;> rfl

/-- Setting one field leaves every other field unchanged. -/
theorem getField_updF_ne (f g : FieldName) (v : HclValue) (o : Options)
    (h : f ≠ g) : getField (updF f v o) g = getField o g := by
  cases f <;> cases v <;> try rfl
  all_goals cases g <;> first | rfl | exact absurd rfl h

/-- A struct already carrying the value an update writes is unchanged by
the update. -/
theorem updF_fix (f : FieldName) (v : HclValue) (o o' : Options)
    (h : getField o' f = getField (updF f v o) f) : updF f v o' = o' := by
  cases f <;> cases v <;> try rfl
  all_goals
    simp only [getField, updF, HclValue.str.injEq, HclValue.int.injEq,
      HclValue.bool.injEq] at h
  all_goals subst h; rfl

/-- The field loop never touches a field that is not in its name list. -/
theorem applyConfigLoop_preserves (cfg : Config) (f : FieldName) :
    ∀ (ns : List FieldName) (o : Options), f ∉ ns →
      getField (applyConfigLoop o ns cfg).1 f = getField o f := by
  intro ns
  induction ns with
  | nil => intro o _; rfl
  | cons g rest ih =>
    intro o hf
    have hfg : f ≠ g := fun hEq => hf (hEq ▸ List.mem_cons_self g rest)
    have hfr : f ∉ rest := fun hm => hf (List.mem_cons_of_mem g hm)
    cases hl : lookupCfg cfg (configKey g) with
    | none =>
      simp only [applyConfigLoop, hl]
      exact ih o hfr
    | some v =>
      cases hk : kindOk g v with
      | false =>
        have hset : setField o g v = .error wrongKindMsg := by
          simp [setField_eq, hk]
        simp only [applyConfigLoop, hl, hset]
      | true =>
        have hset : setField o g v = .ok (updF g v o) := by
          simp [setField_eq, hk]
        simp only [applyConfigLoop, hl, hset]
        rw [ih _ hfr]
        exact getField_updF_ne g f v o (Ne.symm hfg)

/-- Running the field loop on an already-processed struct changes nothing:
each field present in the document is re-set to the same value, and a kind
error recurs at the same field. -/
theorem applyConfigLoop_idem (cfg : Config) :
    ∀ (ns : List FieldName), ns.Nodup → ∀ o : Options,
      applyConfigLoop (applyConfigLoop o ns cfg).1 ns cfg = applyConfigLoop o ns cfg := by
  intro ns
  induction ns with
  | nil => intro _ o; rfl
  | cons g rest ih =>
    intro hnd o
    have hgr : g ∉ rest := (List.nodup_cons.mp hnd).1
    have hrest : rest.Nodup := (List.nodup_cons.mp hnd).2
    cases hl : lookupCfg cfg (configKey g) with
    | none =>
      have hstep : ∀ o₁ : Options,
          applyConfigLoop o₁ (g :: rest) cfg = applyConfigLoop o₁ rest cfg := by
        intro o₁; simp only [applyConfigLoop, hl]
      rw [hstep, hstep]
      exact ih hrest o
    | some v =>
      cases hk : kindOk g v with
      | false =>
        have hstep : ∀ o₁ : Options,
            applyConfigLoop o₁ (g :: rest) cfg = (o₁, some wrongKindMsg) := by
          intro o₁
          have hset : setField o₁ g v = .error wrongKindMsg := by
            simp [setField_eq, hk]
          simp only [applyConfigLoop, hl, hset]
        rw [hstep, hstep]
      | true =>
        have hstep : ∀ o₁ : Options,
            applyConfigLoop o₁ (g :: rest) cfg = applyConfigLoop (updF g v o₁) rest cfg := by
          intro o₁
          have hset : setField o₁ g v = .ok (updF g v o₁) := by
            simp [setField_eq, hk]
          simp only [applyConfigLoop, hl, hset]
        rw [hstep, hstep]
        have hfix : updF g v (applyConfigLoop (updF g v o) rest cfg).1
            = (applyConfigLoop (updF g v o) rest cfg).1 := by
          apply updF_fix g v o
          exact applyConfigLoop_preserves cfg g rest (updF g v o) hgr
        rw [hfix]
        exact ih hrest (updF g v o)

/-- The field loop does nothing on the empty document. -/
theorem applyConfigLoop_nil : ∀ (ns : List FieldName) (o : Options),
    applyConfigLoop o ns [] = (o, none) := by
  intro ns
  induction ns with
  | nil => intro o; rfl
  | cons g rest ih => intro o; simp only [applyConfigLoop, lookupCfg]; exact ih o

/-- Dropping entries whose keys fail a predicate does not change lookups of
keys that pass it. -/
theorem lookupCfg_filter (p : String → Bool) (cfg : Config) (k : String)
    (hk : p k = true) :
    lookupCfg (cfg.filter fun kv => p kv.1) k = lookupCfg cfg k := by
  induction cfg with
  | nil => rfl
  | cons kv rest ih =>
    obtain ⟨k', v⟩ := kv
    by_cases hkk : k' = k
    · subst hkk
      simp [List.filter_cons, lookupCfg, hk]
    · cases hp : p k' with
      | true => simp [List.filter_cons, hp, lookupCfg, hkk, ih]
      | false => simp [List.filter_cons, hp, lookupCfg, hkk, ih]

/-- The field loop only ever looks up the snake-case keys of its fields, so
entries under any other key may be dropped without changing its result. -/
theorem applyConfigLoop_filter (cfg : Config) (p : String → Bool) :
    ∀ (ns : List FieldName), (∀ f ∈ ns, p (configKey f) = true) → ∀ o : Options,
      applyConfigLoop o ns (cfg.filter fun kv => p kv.1) = applyConfigLoop o ns cfg := by
  intro ns
  induction ns with
  | nil => intro _ o; rfl
  | cons g rest ih =>
    intro hp o
    have hg : p (configKey g) = true := hp g (List.mem_cons_self g rest)
    have hrest : ∀ f ∈ rest, p (configKey f) = true :=
      fun f hf => hp f (List.mem_cons_of_mem g hf)
    cases hl : lookupCfg cfg (configKey g) with
    | none =>
      have h1 : applyConfigLoop o (g :: rest) (cfg.filter fun kv => p kv.1)
          = applyConfigLoop o rest (cfg.filter fun kv => p kv.1) := by
        simp only [applyConfigLoop, lookupCfg_filter p cfg (configKey g) hg, hl]
      have h2 : applyConfigLoop o (g :: rest) cfg = applyConfigLoop o rest cfg := by
        simp only [applyConfigLoop, hl]
      rw [h1, h2]
      exact ih hrest o
    | some v =>
      cases hset : setField o g v with
      | ok o' =>
        have h1 : applyConfigLoop o (g :: rest) (cfg.filter fun kv => p kv.1)
            = applyConfigLoop o' rest (cfg.filter fun kv => p kv.1) := by
          simp only [applyConfigLoop, lookupCfg_filter p cfg (configKey g) hg, hl, hset]
        have h2 : applyConfigLoop o (g :: rest) cfg = applyConfigLoop o' rest cfg := by
          simp only [applyConfigLoop, hl, hset]
        rw [h1, h2]
        exact ih hrest o'
      | error e =>
        have h1 : applyConfigLoop o (g :: rest) (cfg.filter fun kv => p kv.1)
            = (o, some e) := by
          simp only [applyConfigLoop, lookupCfg_filter p cfg (configKey g) hg, hl, hset]
        have h2 : applyConfigLoop o (g :: rest) cfg = (o, some e) := by
          simp only [applyConfigLoop, hl, hset]
        rw [h1, h2]

/-! ## Claim C1 — basic auth gate -/

/-- C1 counterexample: the request header `Authorization: Basic %%%%` is
malformed (its payload is not valid base64), yet the wrapper answers it
with status 500 and no `WWW-Authenticate` challenge — not with the 401
challenge the claim requires for every malformed header. -/
theorem wrapBasicAuth_counterexample :
    wrapBasicAuth (bytes "u:p") (bytes "Basic %%%%") = AuthResult.reject 500 false ∧
    AuthResult.reject 500 false ≠ AuthResult.reject 401 true := by decide

/-- C1 (amended): the wrapper forwards a request exactly when the
`Authorization` header splits into a scheme token equal to "basic"
case-insensitively and a payload whose base64 decoding is byte-wise equal
to the configured credential.  Every other request is rejected, with 401
and a challenge header — except that a well-scheme header whose payload is
not valid base64 yields 500 with no challenge. -/
theorem wrapBasicAuth_characterization (cred hdr : GoStr) :
    (wrapBasicAuth cred hdr = AuthResult.forward ↔
      ∃ t0 t1, splitN2 hdr = [t0, t1] ∧ goToLower t0 = bytes "basic" ∧
        base64StdDecode t1 = some cred) ∧
    (wrapBasicAuth cred hdr = AuthResult.reject 500 false ↔
      ∃ t0 t1, splitN2 hdr = [t0, t1] ∧ goToLower t0 = bytes "basic" ∧
        base64StdDecode t1 = none) ∧
    (wrapBasicAuth cred hdr = AuthResult.forward ∨
     wrapBasicAuth cred hdr = AuthResult.reject 500 false ∨
     wrapBasicAuth cred hdr = AuthResult.reject 401 true) := by
  rcases hsp : splitN2 hdr with _ | ⟨t0, _ | ⟨t1, _ | ⟨t2, ts⟩⟩⟩
  · have hw : wrapBasicAuth cred hdr = AuthResult.reject 401 true := by
      simp only [wrapBasicAuth, hsp]
    simp [hw, hsp]
  · have hw : wrapBasicAuth cred hdr = AuthResult.reject 401 true := by
      simp only [wrapBasicAuth, hsp]
    simp [hw, hsp]
  · by_cases hb : goToLower t0 = bytes "basic"
    · cases hd : base64StdDecode t1 with
      | none =>
        have hw : wrapBasicAuth cred hdr = AuthResult.reject 500 false := by
          simp only [wrapBasicAuth, hsp, hd]
          simp [hb]
        rw [hw]
        refine ⟨⟨fun h => absurd h (by decide), fun h => ?_⟩,
                ⟨fun _ => ⟨t0, t1, rfl, hb, hd⟩, fun _ => rfl⟩,
                Or.inr (Or.inl rfl)⟩
        rcases h with ⟨t0', t1', h1, h2, h3⟩
        simp only [List.cons.injEq, and_true] at h1
        obtain ⟨rfl, rfl⟩ := h1
        rw [hd] at h3
        exact absurd h3 (by simp)
      | some payload =>
        by_cases hc : cred = payload
        · obtain rfl := hc
          have hw : wrapBasicAuth cred hdr = AuthResult.forward := by
            simp only [wrapBasicAuth, hsp, hd]
            simp [hb]
          rw [hw]
          refine ⟨⟨fun _ => ⟨t0, t1, rfl, hb, hd⟩, fun _ => rfl⟩,
                  ⟨fun h => absurd h (by decide), fun h => ?_⟩,
                  Or.inl rfl⟩
          rcases h with ⟨t0', t1', h1, h2, h3⟩
          simp only [List.cons.injEq, and_true] at h1
          obtain ⟨rfl, rfl⟩ := h1
          rw [hd] at h3
          exact absurd h3 (by simp)
        · have hw : wrapBasicAuth cred hdr = AuthResult.reject 401 true := by
            simp only [wrapBasicAuth, hsp, hd]
            simp [hb, hc]
          rw [hw]
          refine ⟨⟨fun h => absurd h (by decide), fun h => ?_⟩,
                  ⟨fun h => absurd h (by decide), fun h => ?_⟩,
                  Or.inr (Or.inr rfl)⟩
          · rcases h with ⟨t0', t1', h1, h2, h3⟩
            simp only [List.cons.injEq, and_true] at h1
            obtain ⟨rfl, rfl⟩ := h1
            rw [hd] at h3
            simp only [Option.some.injEq] at h3
            exact absurd h3.symm hc
          · rcases h with ⟨t0', t1', h1, h2, h3⟩
            simp only [List.cons.injEq, and_true] at h1
            obtain ⟨rfl, rfl⟩ := h1
            rw [hd] at h3
            exact absurd h3 (by simp)
    · have hw : wrapBasicAuth cred hdr = AuthResult.reject 401 true := by
        simp only [wrapBasicAuth, hsp]
        simp [hb]
      rw [hw]
      refine ⟨⟨fun h => absurd h (by decide), fun h => ?_⟩,
              ⟨fun h => absurd h (by decide), fun h => ?_⟩,
              Or.inr (Or.inr rfl)⟩
      · rcases h with ⟨t0', t1', h1, h2, h3⟩
        simp only [List.cons.injEq, and_true] at h1
        obtain ⟨rfl, rfl⟩ := h1
        exact absurd h2 hb
      · rcases h with ⟨t0', t1', h1, h2, h3⟩
        simp only [List.cons.injEq, and_true] at h1
        obtain ⟨rfl, rfl⟩ := h1
        exact absurd h2 hb
  · have hw : wrapBasicAuth cred hdr = AuthResult.reject 401 true := by
      simp only [wrapBasicAuth, hsp]
    simp [hw, hsp]

/-! ## Claim C2 — unknown config keys -/

/-- C2 counterexample: a config file whose document holds only the unknown
key "bogus" is applied without error and without changing any option — the
loop at app.go 124–136 iterates over struct fields, never over document
keys, so an unknown key is never even examined. -/
theorem applyConfigFile_unknownKey_counterexample :
    ((fieldNames.map configKey).contains "bogus" = false) ∧
    applyConfigFileM (fun _ => .ok [("bogus", HclValue.str (bytes "x"))])
      (bytes "/h") (fun _ => some (bytes "bogus = x")) DefaultOptions (bytes "/c")
      = some (DefaultOptions, none) := by
  exact ⟨by decide, by decide⟩

/-- C2 (amended): unknown keys are silently ignored, not rejected —
deleting every document entry whose key is not the snake-case name of an
`Options` field changes nothing about what applying the config does. -/
theorem applyConfig_unknown_keys_ignored (o : Options) (cfg : Config) :
    applyConfigLoop o fieldNames
        (cfg.filter fun kv => (fieldNames.map configKey).contains kv.1)
      = applyConfigLoop o fieldNames cfg :=
  applyConfigLoop_filter cfg (fun k => (fieldNames.map configKey).contains k)
    fieldNames (by decide) o

/-! ## Claim C3 — profile file loading -/

/-- C3: profile loading (a) succeeds with the empty preferences map when
the profile path is the default one and the file is missing (the empty
document is decoded; HCL decodes it to the empty map, hypothesis `hdec0`),
(b) returns an error when an explicitly set profile path names no file,
and (c) returns the decoded map when the file exists. -/
theorem loadProfileFile_spec (dec : HclDecoder) (home : GoStr) (fs : FileSys)
    (o : Options) :
    (o.ProfileFile = DefaultOptions.ProfileFile →
      fs (home ++ bytes "/.gotty.prf") = none → dec [] = .ok [] →
      loadProfileFile dec home fs o = .ok []) ∧
    (o.ProfileFile ≠ DefaultOptions.ProfileFile → fs o.ProfileFile = none →
      loadProfileFile dec home fs o = .error errNoSuchFile) ∧
    (∀ contents m, fs (profilePath home o) = some contents →
      dec contents = .ok m → loadProfileFile dec home fs o = .ok m) := by
  refine ⟨?_, ?_, ?_⟩
  · intro hdef hfs hdec0
    simp [loadProfileFile, profilePath, hdef, hfs, hdec0]
  · intro hdef hfs
    simp [loadProfileFile, profilePath, hdef, hfs]
  · intro contents m hfs hdec
    simp [loadProfileFile, hfs, hdec]

/-- Witness for C3 at concrete decoders, file systems and options. -/
theorem loadProfileFile_spec_witness :
    loadProfileFile (fun _ => .ok []) (bytes "/h") (fun _ => none)
        DefaultOptions = .ok [] ∧
    loadProfileFile (fun _ => .ok []) (bytes "/h") (fun _ => none)
        { DefaultOptions with ProfileFile := bytes "/p/x.prf" }
      = .error errNoSuchFile ∧
    loadProfileFile (fun _ => .ok [("k", HclValue.bool true)]) (bytes "/h")
        (fun _ => some (bytes "k = true")) DefaultOptions
      = .ok [("k", HclValue.bool true)] :=
  ⟨(loadProfileFile_spec (fun _ => .ok []) (bytes "/h") (fun _ => none)
      DefaultOptions).1 rfl rfl rfl,
   (loadProfileFile_spec (fun _ => .ok []) (bytes "/h") (fun _ => none)
      { DefaultOptions with ProfileFile := bytes "/p/x.prf" }).2.1 (by decide) rfl,
   (loadProfileFile_spec (fun _ => .ok [("k", HclValue.bool true)]) (bytes "/h")
      (fun _ => some (bytes "k = true")) DefaultOptions).2.2
      (bytes "k = true") [("k", HclValue.bool true)] rfl rfl⟩

/-! ## Claim C4 — hcl.Decode error: discarded in config loading, surfaced
in profile loading -/

/-- C4: for any document the HCL decoder rejects, config-file loading
discards the decode error and succeeds as if the document were empty (the
options are returned unchanged with no error), while profile-file loading
returns that very decode error. -/
theorem hclDecodeError_divergence (dec : HclDecoder) (home : GoStr) (fs : FileSys)
    (o : Options) (d : GoStr) (e : String) (fp fpExp : GoStr)
    (hdec : dec d = .error e)
    (hexp : expandHomeDir home fp = some fpExp)
    (hcfg : fs fpExp = some d)
    (hprof : fs (profilePath home o) = some d) :
    applyConfigFileM dec home fs o fp = some (o, none) ∧
    loadProfileFile dec home fs o = .error e := by
  constructor
  · simp only [applyConfigFileM, hexp, hcfg, hdec]
    rw [applyConfigLoop_nil fieldNames o]
  · simp only [loadProfileFile, hprof, hdec]

/-- Witness for C4: a decoder rejecting every document, with the same
invalid document stored at the config path and the profile path. -/
theorem hclDecodeError_divergence_witness :
    applyConfigFileM (fun _ => .error "parse error") (bytes "/h")
        (fun _ => some (bytes "x =")) DefaultOptions (bytes "/c")
      = some (DefaultOptions, none) ∧
    loadProfileFile (fun _ => .error "parse error") (bytes "/h")
        (fun _ => some (bytes "x =")) DefaultOptions
      = .error "parse error" :=
  hclDecodeError_divergence (fun _ => .error "parse error") (bytes "/h")
    (fun _ => some (bytes "x =")) DefaultOptions (bytes "x =") "parse error"
    (bytes "/c") (bytes "/c") rfl (by decide) rfl rfl

/-! ## Claim C5 — swapped TLS default paths -/

/-- `expandHomeDir` on a path starting with the two bytes "~/". -/
theorem expandHomeDir_tilde (home rest : GoStr) :
    expandHomeDir home (126 :: 47 :: rest) = some (home ++ 47 :: rest) := by
  have hb : (bytes "~/" : GoStr) = [126, 47] := by decide
  unfold expandHomeDir
  rw [if_pos (by simp only [List.length_cons]; omega),
    if_pos (show List.take 2 (126 :: 47 :: rest) = bytes "~/" by rw [hb]; rfl)]
  rfl

/-- C5: the default options assign the `.key`-suffixed path to the
certificate-file field and the `.crt`-suffixed path to the key-file field,
and with TLS enabled the server passes exactly these two paths,
home-expanded, as the certificate and key arguments of
`ListenAndServeTLS`, in that order. -/
theorem tlsDefaults_swapped :
    DefaultOptions.TLSCrtFile = bytes "~/.gotty.key" ∧
    DefaultOptions.TLSKeyFile = bytes "~/.gotty.crt" ∧
    ∀ home : GoStr, runTLSFiles home { DefaultOptions with EnableTLS := true }
      = some (home ++ bytes "/.gotty.key", home ++ bytes "/.gotty.crt") := by
  refine ⟨by decide, by decide, ?_⟩
  intro home
  have e1 : DefaultOptions.TLSCrtFile = 126 :: 47 :: bytes ".gotty.key" := by decide
  have e2 : DefaultOptions.TLSKeyFile = 126 :: 47 :: bytes ".gotty.crt" := by decide
  have htls : ({ DefaultOptions with EnableTLS := true } : Options).EnableTLS = true := by
    decide
  have e3 : (bytes "/.gotty.key" : GoStr) = 47 :: bytes ".gotty.key" := by decide
  have e4 : (bytes "/.gotty.crt" : GoStr) = 47 :: bytes ".gotty.crt" := by decide
  simp only [runTLSFiles, htls, e1, e2, if_true]
  rw [expandHomeDir_tilde home (bytes ".gotty.key"),
    expandHomeDir_tilde home (bytes ".gotty.crt")]
  rw [e3, e4]

/-! ## Claim C6 — random path segment alphabet and length -/

/-- C6: for every length n and random stream, the generated path segment
has exactly n bytes, each a lowercase base-36 digit ('0'–'9' or 'a'–'z'). -/
theorem generateRandomString_spec (rands : Nat → Fin 36) (n : Nat) :
    (generateRandomString rands n).length = n ∧
    ∀ b ∈ generateRandomString rands n,
      (48 ≤ b ∧ b ≤ 57) ∨ (97 ≤ b ∧ b ≤ 122) := by
  constructor
  · simp [generateRandomString]
  · intro b hb
    simp only [generateRandomString, List.mem_map] at hb
    obtain ⟨i, _, rfl⟩ := hb
    have h36 := (rands i).isLt
    unfold base36Byte
    by_cases h : (rands i).val < 10
    · rw [if_pos h]; left; omega
    · rw [if_neg h]; right; omega

/-- Witness for C6 at a concrete stream and length. -/
theorem generateRandomString_spec_witness :
    (generateRandomString (fun i => ⟨i % 36, Nat.mod_lt i (by decide)⟩) 4).length = 4 ∧
    ∀ b ∈ generateRandomString (fun i => ⟨i % 36, Nat.mod_lt i (by decide)⟩) 4,
      (48 ≤ b ∧ b ≤ 57) ∨ (97 ≤ b ∧ b ≤ 122) :=
  generateRandomString_spec (fun i => ⟨i % 36, Nat.mod_lt i (by decide)⟩) 4

/-! ## Claim C7 — random URL of length zero -/

/-- C7 counterexample: with random-URL enabled and length 0, the prefix is
"/" — a slash followed by the empty random segment — not the empty string,
and the mux patterns are "//" and "//ws" rather than "/" and "/ws". -/
theorem zeroLengthRandomUrl_counterexample :
    runRoutes { DefaultOptions with EnableRandomUrl := true, RandomUrlLength := 0 }
        (fun _ => (0 : Fin 36))
      = some (bytes "/", ⟨bytes "//", bytes "//ws"⟩) ∧
    (bytes "/" : GoStr) ≠ [] ∧
    (bytes "//" : GoStr) ≠ bytes "/" ∧ (bytes "//ws" : GoStr) ≠ bytes "/ws" := by
  decide

/-- C7 (amended): for every random stream, enabling random URL with
configured length 0 produces the prefix "/" and registers the static route
at "//" and the socket route at "//ws". -/
theorem zeroLengthRandomUrl (rands : Nat → Fin 36) :
    runRoutes { DefaultOptions with EnableRandomUrl := true, RandomUrlLength := 0 } rands
      = some (bytes "/", ⟨bytes "//", bytes "//ws"⟩) := rfl

/-! ## Claim C8 — applying the same config file twice -/

/-- C8: applying the same configuration file a second time, to the options
struct that the first application produced, yields exactly the same struct
and the same returned error: each field present in the document is re-set
to the same decoded value, and a kind error recurs at the same field with
the struct in the same state. -/
theorem applyConfigFile_idempotent (dec : HclDecoder) (home : GoStr) (fs : FileSys)
    (o o' : Options) (e? : Option String) (fp : GoStr)
    (h : applyConfigFileM dec home fs o fp = some (o', e?)) :
    applyConfigFileM dec home fs o' fp = some (o', e?) := by
  unfold applyConfigFileM at h ⊢
  cases hexp : expandHomeDir home fp with
  | none =>
    rw [hexp] at h
    simp at h
  | some fpExp =>
    rw [hexp] at h
    dsimp only at h ⊢
    cases hfs : fs fpExp with
    | none =>
      rw [hfs] at h
      dsimp only at h ⊢
      simp only [Option.some.injEq, Prod.mk.injEq] at h
      rw [h.2]
    | some contents =>
      rw [hfs] at h
      dsimp only at h ⊢
      cases hdec : dec contents with
      | ok c =>
        rw [hdec] at h
        dsimp only at h ⊢
        simp only [Option.some.injEq] at h ⊢
        have hidem := applyConfigLoop_idem c fieldNames (by decide) o
        rw [h] at hidem
        exact hidem
      | error e =>
        rw [hdec] at h
        dsimp only at h ⊢
        simp only [Option.some.injEq] at h ⊢
        rw [applyConfigLoop_nil] at h ⊢
        simp only [Prod.mk.injEq] at h
        obtain ⟨rfl, h2⟩ := h
        rw [← h2]

/-- Witness for C8: applying a config that sets the port a second time
leaves the once-applied options unchanged. -/
theorem applyConfigFile_idempotent_witness :
    applyConfigFileM (fun _ => .ok [("port", HclValue.str (bytes "9000"))])
        (bytes "/h") (fun _ => some (bytes "port = 9000"))
        { DefaultOptions with Port := bytes "9000" } (bytes "/c")
      = some ({ DefaultOptions with Port := bytes "9000" }, none) :=
  applyConfigFile_idempotent (fun _ => .ok [("port", HclValue.str (bytes "9000"))])
    (bytes "/h") (fun _ => some (bytes "port = 9000")) DefaultOptions
    { DefaultOptions with Port := bytes "9000" } none (bytes "/c") (by decide)

/-! ## Claim C9 — partial home-directory expansion -/

/-- C9: for paths of length at least two, `expandHomeDir` returns HOME
concatenated with the path minus its leading '~' when the path starts with
the bytes "~/" and the path unchanged otherwise; for any shorter path
(including the empty one) the slice `path[0:2]` is out of bounds and the
function panics. -/
theorem expandHomeDir_spec (home path : GoStr) :
    (∀ rest : GoStr, path = 126 :: 47 :: rest →
      expandHomeDir home path = some (home ++ 47 :: rest)) ∧
    (2 ≤ path.length → (¬ ∃ rest : GoStr, path = 126 :: 47 :: rest) →
      expandHomeDir home path = some path) ∧
    (path.length < 2 → expandHomeDir home path = none) := by
  refine ⟨?_, ?_, ?_⟩
  · rintro rest rfl
    exact expandHomeDir_tilde home rest
  · intro hlen hne
    have htake : ¬ (path.take 2 = bytes "~/") := by
      intro htake
      apply hne
      have hb : (bytes "~/" : GoStr) = [126, 47] := by decide
      rw [hb] at htake
      rcases path with _ | ⟨a, _ | ⟨b, rest⟩⟩
      · simp at hlen
      · simp at hlen
      · have ht : List.take 2 (a :: b :: rest) = [a, b] := rfl
        rw [ht] at htake
        simp only [List.cons.injEq, and_true] at htake
        exact ⟨rest, by rw [htake.1, htake.2]⟩
    unfold expandHomeDir
    rw [if_pos hlen, if_neg htake]
  · intro hlen
    unfold expandHomeDir
    rw [if_neg (by omega)]

/-- Witness for C9 at three concrete paths: one starting with "~/", one of
length two without the prefix, and one too short (the panic case). -/
theorem expandHomeDir_spec_witness :
    expandHomeDir (bytes "/home/u") (bytes "~/.gotty.conf")
      = some (bytes "/home/u" ++ 47 :: bytes ".gotty.conf") ∧
    expandHomeDir (bytes "/home/u") (bytes "ab") = some (bytes "ab") ∧
    expandHomeDir (bytes "/home/u") (bytes "a") = none := by
  refine ⟨(expandHomeDir_spec (bytes "/home/u") (bytes "~/.gotty.conf")).1
            (bytes ".gotty.conf") (by decide),
          (expandHomeDir_spec (bytes "/home/u") (bytes "ab")).2.1 (by decide) ?_,
          (expandHomeDir_spec (bytes "/home/u") (bytes "a")).2.2 (by decide)⟩
  rintro ⟨rest, hr⟩
  have h2 : (bytes "ab" : GoStr) = [97, 98] := by decide
  rw [h2] at hr
  injection hr with h1 _
  exact absurd h1 (by decide)

/-! ## Claim C10 — missing config file leaves the options untouched -/

/-- C10: when the home-expanded config path names no existing file, config
loading returns the stat error and the options struct is completely
unchanged — the existence check precedes every field modification. -/
theorem applyConfigFile_missing (dec : HclDecoder) (home : GoStr) (fs : FileSys)
    (o : Options) (fp fpExp : GoStr)
    (hexp : expandHomeDir home fp = some fpExp)
    (hfs : fs fpExp = none) :
    applyConfigFileM dec home fs o fp = some (o, some errNoSuchFile) := by
  simp only [applyConfigFileM, hexp, hfs]

/-- Witness for C10 at a concrete missing file. -/
theorem applyConfigFile_missing_witness :
    applyConfigFileM (fun _ => .ok []) (bytes "/h") (fun _ => none)
        DefaultOptions (bytes "/c") = some (DefaultOptions, some errNoSuchFile) :=
  applyConfigFile_missing (fun _ => .ok []) (bytes "/h") (fun _ => none)
    DefaultOptions (bytes "/c") (bytes "/c") (by decide) rfl
